import Mathlib

/-!
Shallow embedding of the chat application in `src/app.py`.

Opaque uuid4-generated identifiers are modelled as naturals drawn from a
monotone counter `next_id` held in the session state; `datetime.now()` is
modelled as a monotone clock `now` that advances on every operation that
reads it.  Python dicts (`users`, `groups`) preserve insertion order and are
keyed by the freshly generated id, so they are modelled as insertion-ordered
lists of the stored records; the Python `set` `active_chats` is modelled as a
`Finset`.  Chat-window keys are either a raw user id or the string
`"group_" + group_id`; since raw uuid strings never start with that marker,
the key space is modelled as a tagged sum `ChatKey`.
-/

namespace ChatApp

/-- `User` dataclass (src/app.py lines 8-15). -/
structure User where
  id : Nat
  name : String
  age : Nat
  gender : String
  online : Bool
  last_active : Nat
deriving DecidableEq, Repr

/-- `Message` dataclass (src/app.py lines 17-24). -/
structure Message where
  id : Nat
  sender_id : Nat
  receiver_id : Nat
  content : String
  timestamp : Nat
  is_read : Bool
deriving DecidableEq, Repr

/-- `Group` dataclass (src/app.py lines 26-32). -/
structure Group where
  id : Nat
  name : String
  creator_id : Nat
  members : List Nat
  created_at : Nat
deriving DecidableEq, Repr

/-- A key of an open chat window: a raw user id, or `"group_" + group_id`. -/
inductive ChatKey where
  | user (uid : Nat) : ChatKey
  | group (gid : Nat) : ChatKey
deriving DecidableEq, Repr

/-- The session state initialised by `init_session_state` (src/app.py lines
34-49), together with the id counter and clock that model `uuid.uuid4()` and
`datetime.datetime.now()`. -/
structure SessionState where
  users : List User
  current_user : Option User
  messages : List Message
  groups : List Group
  active_chats : Finset ChatKey
  unread_counts : List (Nat × Nat)
  current_page : String
  next_id : Nat
  now : Nat
deriving DecidableEq

/-- The freshly initialised session state. -/
def initState : SessionState :=
  { users := [], current_user := none, messages := [], groups := [],
    active_chats := ∅, unread_counts := [], current_page := "login",
    next_id := 0, now := 0 }

/-- `get_unread_messages_count` (src/app.py lines 51-54). -/
def get_unread_messages_count (s : SessionState) (user_id : Nat) : Nat :=
  s.messages.countP (fun m => m.receiver_id == user_id && !m.is_read)

/-- The successful submit branch of `login_page` (src/app.py lines 70-81):
guarded by a non-empty name and a concrete gender selection, it creates a
fresh user (default `online=True`), stores it in the users map, makes it the
current user and moves to the main page. -/
def createUser (s : SessionState) (name : String) (age : Nat)
    (gender : String) : SessionState :=
  if name ≠ "" ∧ gender ≠ "Select Gender" then
    let u : User :=
      { id := s.next_id, name := name, age := age, gender := gender,
        online := true, last_active := s.now }
    { s with users := s.users ++ [u], current_user := some u,
             current_page := "main", next_id := s.next_id + 1,
             now := s.now + 1 }
  else s

/-- The direct-chat filter of `render_chat_window` (src/app.py lines 88-92):
keep the messages whose sender is one of the two participants AND whose
receiver is one of the two participants. -/
def chatFilter (curId otherId : Nat) (m : Message) : Bool :=
  (m.sender_id == curId || m.sender_id == otherId) &&
  (m.receiver_id == curId || m.receiver_id == otherId)

/-- `chat_messages` of `render_chat_window` (src/app.py lines 88-92). -/
def chatMessages (msgs : List Message) (curId otherId : Nat) : List Message :=
  msgs.filter (chatFilter curId otherId)

/-- The list actually displayed by `render_chat_window` (src/app.py line
118): the filtered messages sorted by timestamp with Python's stable
`sorted`. -/
def displayedChatHistory (msgs : List Message) (curId otherId : Nat) :
    List Message :=
  List.insertionSort (fun x y => x.timestamp ≤ y.timestamp)
    (chatMessages msgs curId otherId)

/-- The submit branch of the per-chat message form (src/app.py lines
105-114): an empty content is a no-op, otherwise a fresh message to the
other user is appended. -/
def sendDirectMessage (s : SessionState) (c : User) (other_id : Nat)
    (content : String) : SessionState :=
  if content ≠ "" then
    let m : Message :=
      { id := s.next_id, sender_id := c.id, receiver_id := other_id,
        content := content, timestamp := s.now, is_read := false }
    { s with messages := s.messages ++ [m], next_id := s.next_id + 1,
             now := s.now + 1 }
  else s

/-- The submit branch of the group message form in `render_group_chat`
(src/app.py lines 159-168): same as a direct send, with the group id as
receiver. -/
def sendGroupMessage (s : SessionState) (c : User) (group_id : Nat)
    (content : String) : SessionState :=
  if content ≠ "" then
    let m : Message :=
      { id := s.next_id, sender_id := c.id, receiver_id := group_id,
        content := content, timestamp := s.now, is_read := false }
    { s with messages := s.messages ++ [m], next_id := s.next_id + 1,
             now := s.now + 1 }
  else s

/-- `available_users` of the group creation form (src/app.py lines 203-204):
all users other than the current one, in users-map iteration order. -/
def availableUsers (users : List User) (curId : Nat) : List User :=
  users.filter (fun u => u.id != curId)

/-- The submit branch of `create_group_form` (src/app.py lines 211-227):
no-op unless both a name and at least one member name were given; otherwise
the member list is the creator followed by, in users-map order, the id of
every other user whose display name is among the selected names. -/
def createGroup (s : SessionState) (c : User) (group_name : String)
    (selected_users : List String) : SessionState :=
  if group_name ≠ "" ∧ selected_users ≠ [] then
    let member_ids : List Nat :=
      c.id :: ((availableUsers s.users c.id).filter
        (fun u => selected_users.contains u.name)).map (fun u => u.id)
    let g : Group :=
      { id := s.next_id, name := group_name, creator_id := c.id,
        members := member_ids, created_at := s.now }
    { s with groups := s.groups ++ [g], next_id := s.next_id + 1,
             now := s.now + 1 }
  else s

/-- The `Chat` / group buttons (src/app.py lines 194-195 and 235-236):
add the key to `active_chats`. -/
def openChat (s : SessionState) (k : ChatKey) : SessionState :=
  { s with active_chats := insert k s.active_chats }

/-- The `Close Chat` button (src/app.py lines 262-264): remove the key from
`active_chats` (the button is only rendered for keys currently in the set,
so the underlying `set.remove` never sees an absent key). -/
def closeChat (s : SessionState) (k : ChatKey) : SessionState :=
  { s with active_chats := s.active_chats.erase k }

/-- The `Logout` button (src/app.py lines 249-252): clear the current user
and return to the login page, touching nothing else. -/
def logout (s : SessionState) : SessionState :=
  { s with current_user := none, current_page := "login" }

/-- The ids present in the users map, in iteration order. -/
def userIds (s : SessionState) : List Nat := s.users.map (fun u => u.id)

/-- The ids present in the groups map, in iteration order. -/
def groupIds (s : SessionState) : List Nat := s.groups.map (fun g => g.id)

/-- The exact-pair membership predicate the specification describes for
`directHistory`: the message's `{senderId, receiverId}`, read as a set,
equals `{userA, userB}`. -/
def exactPairFilter (a b : Nat) (m : Message) : Bool :=
  decide (({m.sender_id, m.receiver_id} : Finset Nat) =
    ({a, b} : Finset Nat))

instance timestampLeTotal :
    IsTotal Message (fun x y => x.timestamp ≤ y.timestamp) :=
  ⟨fun a b => Nat.le_total a.timestamp b.timestamp⟩

instance timestampLeTrans :
    IsTrans Message (fun x y => x.timestamp ≤ y.timestamp) :=
  ⟨fun _ _ _ hab hbc => Nat.le_trans hab hbc⟩

/-! Concrete scenario states used to instantiate the theorems: Alice logs
in, logs out, Bob logs in, opens the chat with Alice and sends her three
messages; a third login (Carol) is used for the group scenarios. -/

def aliceUser : User :=
  { id := 0, name := "Alice", age := 25, gender := "Female", online := true,
    last_active := 0 }

def bobUser : User :=
  { id := 1, name := "Bob", age := 30, gender := "Male", online := true,
    last_active := 1 }

def carolUser : User :=
  { id := 2, name := "Carol", age := 40, gender := "Other", online := true,
    last_active := 2 }

def exStateA : SessionState := createUser initState "Alice" 25 "Female"

def exStateB : SessionState := createUser (logout exStateA) "Bob" 30 "Male"

def exStateC : SessionState := createUser (logout exStateB) "Carol" 40 "Other"

def exStateChat : SessionState := openChat exStateB (ChatKey.user 0)

def exStateMsgs : SessionState :=
  sendDirectMessage (sendDirectMessage (sendDirectMessage exStateChat
    bobUser 0 "hi") bobUser 0 "how are you") bobUser 0 "ping"

/-- One UI event, guarded the way `main` dispatches rendering (src/app.py
lines 266-272): the login form is reachable only on the login page, every
other handler only on the main page with a current user; the `Chat` button
exists only for users other than the current one (line 189), the group
button only for groups containing the current user (line 234), the message
form only for a chat key in `active_chats` (line 255), and `Close Chat` only
for an open chat (line 262). -/
inductive Step : SessionState → SessionState → Prop
  | create_user (s : SessionState) (name : String) (age : Nat)
      (gender : String) (hp : s.current_page = "login") :
      Step s (createUser s name age gender)
  | send_direct (s : SessionState) (c : User) (other : Nat)
      (content : String) (hp : s.current_page = "main")
      (hc : s.current_user = some c)
      (hk : ChatKey.user other ∈ s.active_chats) :
      Step s (sendDirectMessage s c other content)
  | send_group (s : SessionState) (c : User) (gid : Nat) (content : String)
      (hp : s.current_page = "main") (hc : s.current_user = some c)
      (hk : ChatKey.group gid ∈ s.active_chats) :
      Step s (sendGroupMessage s c gid content)
  | create_group (s : SessionState) (c : User) (gname : String)
      (selected : List String) (hp : s.current_page = "main")
      (hc : s.current_user = some c) :
      Step s (createGroup s c gname selected)
  | open_user_chat (s : SessionState) (c : User) (uid : Nat)
      (hp : s.current_page = "main") (hc : s.current_user = some c)
      (hu : uid ∈ userIds s) (hne : uid ≠ c.id) :
      Step s (openChat s (ChatKey.user uid))
  | open_group_chat (s : SessionState) (c : User) (gid : Nat)
      (hp : s.current_page = "main") (hc : s.current_user = some c)
      (hg : ∃ g ∈ s.groups, g.id = gid ∧ c.id ∈ g.members) :
      Step s (openChat s (ChatKey.group gid))
  | close_chat (s : SessionState) (k : ChatKey)
      (hp : s.current_page = "main") (hk : k ∈ s.active_chats) :
      Step s (closeChat s k)
  | logout_click (s : SessionState) (hp : s.current_page = "main") :
      Step s (logout s)

/-- The session states reachable from the freshly initialised state by UI
events. -/
inductive Reachable : SessionState → Prop
  | init : Reachable initState
  | step {s t : SessionState} : Reachable s → Step s t → Reachable t

/-- The state invariant maintained by every UI event. -/
structure Inv (s : SessionState) : Prop where
  users_lt : ∀ u ∈ s.users, u.id < s.next_id
  groups_lt : ∀ g ∈ s.groups, g.id < s.next_id
  user_group_disjoint : ∀ u ∈ s.users, ∀ g ∈ s.groups, u.id ≠ g.id
  msg_wf : ∀ m ∈ s.messages,
      (m.sender_id ≠ m.receiver_id ∧ m.receiver_id ∈ userIds s) ∨
        m.receiver_id ∈ groupIds s
  msg_unread : ∀ m ∈ s.messages, m.is_read = false
  chat_user : ∀ uid : Nat, ChatKey.user uid ∈ s.active_chats →
      uid ∈ userIds s ∧ ∀ c : User, s.current_user = some c → uid ≠ c.id
  chat_group : ∀ gid : Nat, ChatKey.group gid ∈ s.active_chats →
      gid ∈ groupIds s
  groups_creator : ∀ g ∈ s.groups, g.creator_id ∈ g.members
  login_iff : s.current_user = none ↔ s.current_page = "login"

theorem inv_initState : Inv initState := by
  constructor <;> simp [initState, userIds, groupIds]

theorem userIds_mono_append (s : SessionState) (l : List User) (x : Nat)
    (hx : x ∈ userIds s) :
    x ∈ (s.users ++ l).map (fun u => u.id) := by
  simp only [userIds, List.mem_map] at hx
  rcases hx with ⟨u, hu, hux⟩
  exact List.mem_map.mpr ⟨u, List.mem_append_left _ hu, hux⟩

theorem groupIds_mono_append (s : SessionState) (l : List Group) (x : Nat)
    (hx : x ∈ groupIds s) :
    x ∈ (s.groups ++ l).map (fun g => g.id) := by
  simp only [groupIds, List.mem_map] at hx
  rcases hx with ⟨g, hg, hgx⟩
  exact List.mem_map.mpr ⟨g, List.mem_append_left _ hg, hgx⟩

theorem inv_createUser (s : SessionState) (hs : Inv s) (name : String)
    (age : Nat) (gender : String) : Inv (createUser s name age gender) := by
  unfold createUser
  split
  case isFalse => exact hs
  case isTrue h =>
    obtain ⟨hul, hgl, hdisj, hwf, hunread, hcu, hcg, hgc, hli⟩ := hs
    constructor
    · intro u hu
      simp only [List.mem_append, List.mem_singleton] at hu
      rcases hu with hu | rfl
      · exact Nat.lt_succ_of_lt (hul u hu)
      · exact Nat.lt_succ_self _
    · intro g hg
      exact Nat.lt_succ_of_lt (hgl g hg)
    · intro u hu g hg
      simp only [List.mem_append, List.mem_singleton] at hu
      rcases hu with hu | rfl
      · exact hdisj u hu g hg
      · exact fun hc => absurd hc.symm (Nat.ne_of_lt (hgl g hg))
    · intro m hm
      rcases hwf m hm with ⟨hne, hr⟩ | hr
      · exact Or.inl ⟨hne, userIds_mono_append s _ _ hr⟩
      · exact Or.inr hr
    · exact hunread
    · intro uid hk
      obtain ⟨hid, _⟩ := hcu uid hk
      refine ⟨userIds_mono_append s _ _ hid, ?_⟩
      intro c hc
      simp only [Option.some.injEq] at hc
      subst hc
      show uid ≠ s.next_id
      simp only [userIds, List.mem_map] at hid
      rcases hid with ⟨u, hu, hux⟩
      exact hux ▸ Nat.ne_of_lt (hul u hu)
    · exact hcg
    · exact hgc
    · simp

theorem inv_sendDirect (s : SessionState) (hs : Inv s) (c : User)
    (other : Nat) (content : String) (hc : s.current_user = some c)
    (hk : ChatKey.user other ∈ s.active_chats) :
    Inv (sendDirectMessage s c other content) := by
  unfold sendDirectMessage
  split
  case isFalse => exact hs
  case isTrue h =>
    obtain ⟨hul, hgl, hdisj, hwf, hunread, hcu, hcg, hgc, hli⟩ := hs
    obtain ⟨hoid, hone⟩ := hcu other hk
    constructor
    · exact fun u hu => Nat.lt_succ_of_lt (hul u hu)
    · exact fun g hg => Nat.lt_succ_of_lt (hgl g hg)
    · exact hdisj
    · intro m hm
      simp only [List.mem_append, List.mem_singleton] at hm
      rcases hm with hm | rfl
      · exact hwf m hm
      · exact Or.inl ⟨fun hcon => (hone c hc) hcon.symm, hoid⟩
    · intro m hm
      simp only [List.mem_append, List.mem_singleton] at hm
      rcases hm with hm | rfl
      · exact hunread m hm
      · rfl
    · exact hcu
    · exact hcg
    · exact hgc
    · exact hli

theorem inv_sendGroup (s : SessionState) (hs : Inv s) (c : User)
    (gid : Nat) (content : String)
    (hk : ChatKey.group gid ∈ s.active_chats) :
    Inv (sendGroupMessage s c gid content) := by
  unfold sendGroupMessage
  split
  case isFalse => exact hs
  case isTrue h =>
    obtain ⟨hul, hgl, hdisj, hwf, hunread, hcu, hcg, hgc, hli⟩ := hs
    constructor
    · exact fun u hu => Nat.lt_succ_of_lt (hul u hu)
    · exact fun g hg => Nat.lt_succ_of_lt (hgl g hg)
    · exact hdisj
    · intro m hm
      simp only [List.mem_append, List.mem_singleton] at hm
      rcases hm with hm | rfl
      · exact hwf m hm
      · exact Or.inr (hcg gid hk)
    · intro m hm
      simp only [List.mem_append, List.mem_singleton] at hm
      rcases hm with hm | rfl
      · exact hunread m hm
      · rfl
    · exact hcu
    · exact hcg
    · exact hgc
    · exact hli

theorem inv_createGroup (s : SessionState) (hs : Inv s) (c : User)
    (gname : String) (selected : List String) :
    Inv (createGroup s c gname selected) := by
  unfold createGroup
  split
  case isFalse => exact hs
  case isTrue h =>
    obtain ⟨hul, hgl, hdisj, hwf, hunread, hcu, hcg, hgc, hli⟩ := hs
    constructor
    · exact fun u hu => Nat.lt_succ_of_lt (hul u hu)
    · intro g hg
      simp only [List.mem_append, List.mem_singleton] at hg
      rcases hg with hg | rfl
      · exact Nat.lt_succ_of_lt (hgl g hg)
      · exact Nat.lt_succ_self _
    · intro u hu g hg
      simp only [List.mem_append, List.mem_singleton] at hg
      rcases hg with hg | rfl
      · exact hdisj u hu g hg
      · exact Nat.ne_of_lt (hul u hu)
    · intro m hm
      rcases hwf m hm with ⟨hne, hr⟩ | hr
      · exact Or.inl ⟨hne, hr⟩
      · exact Or.inr (groupIds_mono_append s _ _ hr)
    · exact hunread
    · exact hcu
    · intro gid hk
      exact groupIds_mono_append s _ _ (hcg gid hk)
    · intro g hg
      simp only [List.mem_append, List.mem_singleton] at hg
      rcases hg with hg | rfl
      · exact hgc g hg
      · exact List.mem_cons_self _ _
    · exact hli

theorem inv_openChat_user (s : SessionState) (hs : Inv s) (c : User)
    (uid : Nat) (hc : s.current_user = some c) (hu : uid ∈ userIds s)
    (hne : uid ≠ c.id) : Inv (openChat s (ChatKey.user uid)) := by
  obtain ⟨hul, hgl, hdisj, hwf, hunread, hcu, hcg, hgc, hli⟩ := hs
  constructor <;> try assumption
  · intro uid' hk
    simp only [openChat, Finset.mem_insert] at hk
    rcases hk with hk | hk
    · cases hk
      refine ⟨hu, ?_⟩
      intro c' hc'
      have hc2 : s.current_user = some c' := hc'
      rw [hc] at hc2
      simp only [Option.some.injEq] at hc2
      exact hc2 ▸ hne
    · exact hcu uid' hk
  · intro gid hk
    simp only [openChat, Finset.mem_insert] at hk
    rcases hk with hk | hk
    · cases hk
    · exact hcg gid hk

theorem inv_openChat_group (s : SessionState) (hs : Inv s) (c : User)
    (gid : Nat) (hg : ∃ g ∈ s.groups, g.id = gid ∧ c.id ∈ g.members) :
    Inv (openChat s (ChatKey.group gid)) := by
  obtain ⟨hul, hgl, hdisj, hwf, hunread, hcu, hcg, hgc, hli⟩ := hs
  constructor <;> try assumption
  · intro uid hk
    simp only [openChat, Finset.mem_insert] at hk
    rcases hk with hk | hk
    · cases hk
    · exact hcu uid hk
  · intro gid' hk
    simp only [openChat, Finset.mem_insert] at hk
    rcases hk with hk | hk
    · cases hk
      rcases hg with ⟨g, hgmem, hgid, _⟩
      exact List.mem_map.mpr ⟨g, hgmem, hgid⟩
    · exact hcg gid' hk

theorem inv_closeChat (s : SessionState) (hs : Inv s) (k : ChatKey) :
    Inv (closeChat s k) := by
  obtain ⟨hul, hgl, hdisj, hwf, hunread, hcu, hcg, hgc, hli⟩ := hs
  constructor <;> try assumption
  · intro uid hk
    exact hcu uid (Finset.mem_of_mem_erase hk)
  · intro gid hk
    exact hcg gid (Finset.mem_of_mem_erase hk)

theorem inv_logout (s : SessionState) (hs : Inv s) : Inv (logout s) := by
  obtain ⟨hul, hgl, hdisj, hwf, hunread, hcu, hcg, hgc, hli⟩ := hs
  constructor <;> try assumption
  · intro uid hk
    refine ⟨(hcu uid hk).1, ?_⟩
    intro c hc
    simp [logout] at hc
  · simp [logout]

theorem inv_step {s t : SessionState} (hs : Inv s) (h : Step s t) : Inv t := by
  cases h with
  | create_user name age gender hp => exact inv_createUser s hs name age gender
  | send_direct c other content hp hc hk => exact inv_sendDirect s hs c other content hc hk
  | send_group c gid content hp hc hk => exact inv_sendGroup s hs c gid content hk
  | create_group c gname selected hp hc => exact inv_createGroup s hs c gname selected
  | open_user_chat c uid hp hc hu hne => exact inv_openChat_user s hs c uid hc hu hne
  | open_group_chat c gid hp hc hg => exact inv_openChat_group s hs c gid hg
  | close_chat k hp hk => exact inv_closeChat s hs k
  | logout_click hp => exact inv_logout s hs

theorem reachable_inv {s : SessionState} (hs : Reachable s) : Inv s := by
  induction hs with
  | init => exact inv_initState
  | step _ h ih => exact inv_step ih h

theorem reachable_exStateB : Reachable exStateB :=
  Reachable.step (Reachable.step (Reachable.step Reachable.init
    (Step.create_user initState "Alice" 25 "Female" rfl))
    (Step.logout_click exStateA (by decide)))
    (Step.create_user (logout exStateA) "Bob" 30 "Male" (by decide))

theorem reachable_exStateC : Reachable exStateC :=
  Reachable.step (Reachable.step reachable_exStateB
    (Step.logout_click exStateB (by decide)))
    (Step.create_user (logout exStateB) "Carol" 40 "Other" (by decide))

theorem reachable_exStateChat : Reachable exStateChat :=
  Reachable.step reachable_exStateB
    (Step.open_user_chat exStateB bobUser 0 (by decide) (by decide)
      (by decide) (by decide))

theorem reachable_exStateMsgs : Reachable exStateMsgs :=
  Reachable.step (Reachable.step (Reachable.step reachable_exStateChat
    (Step.send_direct exStateChat bobUser 0 "hi" (by decide) (by decide)
      (by decide)))
    (Step.send_direct (sendDirectMessage exStateChat bobUser 0 "hi") bobUser
      0 "how are you" (by decide) (by decide) (by decide)))
    (Step.send_direct (sendDirectMessage (sendDirectMessage exStateChat
      bobUser 0 "hi") bobUser 0 "how are you") bobUser 0 "ping" (by decide)
      (by decide) (by decide))

/-- Under the state invariant, the membership filter of
`render_chat_window` agrees, on every stored message, with the exact-pair
predicate of the specification: direct messages never have equal sender and
receiver, and a group id can never coincide with either user id. -/
theorem chatFilter_eq_exactPairFilter (s : SessionState) (hs : Inv s)
    (a b : User) (ha : a ∈ s.users) (hb : b ∈ s.users)
    (hab : a.id ≠ b.id) :
    ∀ m ∈ s.messages,
      chatFilter a.id b.id m = exactPairFilter a.id b.id m := by
  intro m hm
  apply Bool.coe_iff_coe.mp
  simp only [chatFilter, exactPairFilter, Bool.and_eq_true, Bool.or_eq_true,
    beq_iff_eq, decide_eq_true_eq]
  constructor
  · rintro ⟨hsend, hrecv⟩
    rcases hs.msg_wf m hm with ⟨hne, _⟩ | hrgroup
    · rcases hsend with h1 | h1 <;> rcases hrecv with h2 | h2
      · exact absurd (h1.trans h2.symm) hne
      · rw [h1, h2]
      · rw [h1, h2]
        exact Finset.pair_comm _ _
      · exact absurd (h1.trans h2.symm) hne
    · exfalso
      simp only [groupIds, List.mem_map] at hrgroup
      rcases hrgroup with ⟨g, hg, hgid⟩
      rcases hrecv with h2 | h2
      · exact hs.user_group_disjoint a ha g hg (hgid.trans h2).symm
      · exact hs.user_group_disjoint b hb g hg (hgid.trans h2).symm
  · intro hset
    have hsender : m.sender_id ∈ ({a.id, b.id} : Finset Nat) := by
      rw [← hset]
      exact Finset.mem_insert_self _ _
    have hrecv : m.receiver_id ∈ ({a.id, b.id} : Finset Nat) := by
      rw [← hset]
      exact Finset.mem_insert_of_mem (Finset.mem_singleton_self _)
    simp only [Finset.mem_insert, Finset.mem_singleton] at hsender hrecv
    exact ⟨hsender, hrecv⟩

/-! The claim theorems. -/

/-- Claim C1: for distinct users `a` and `b`, the direct-chat history the
chat window displays is, up to the sorting permutation, exactly the stored
messages whose `{senderId, receiverId}` as a set equals `{a, b}`, and the
displayed list is sorted ascending by timestamp. -/
theorem direct_history_exact (s : SessionState) (hs : Reachable s)
    (a b : User) (ha : a ∈ s.users) (hb : b ∈ s.users)
    (hab : a.id ≠ b.id) :
    (displayedChatHistory s.messages a.id b.id).Perm
      (s.messages.filter (exactPairFilter a.id b.id)) ∧
    (displayedChatHistory s.messages a.id b.id).Sorted
      (fun x y => x.timestamp ≤ y.timestamp) := by
  have hinv := reachable_inv hs
  have hfeq : chatMessages s.messages a.id b.id
      = s.messages.filter (exactPairFilter a.id b.id) :=
    List.filter_congr (chatFilter_eq_exactPairFilter s hinv a b ha hb hab)
  constructor
  · have hperm := List.perm_insertionSort
      (fun x y : Message => x.timestamp ≤ y.timestamp)
      (chatMessages s.messages a.id b.id)
    rw [displayedChatHistory]
    exact hfeq ▸ hperm
  · exact List.sorted_insertionSort _ _

/-- Claim C1 witness: the displayed Bob-Alice history after Bob's three
sends. -/
theorem direct_history_exact_witness :
    (displayedChatHistory exStateMsgs.messages aliceUser.id bobUser.id).Perm
      (exStateMsgs.messages.filter (exactPairFilter aliceUser.id bobUser.id)) ∧
    (displayedChatHistory exStateMsgs.messages aliceUser.id bobUser.id).Sorted
      (fun x y => x.timestamp ≤ y.timestamp) :=
  direct_history_exact exStateMsgs reachable_exStateMsgs aliceUser bobUser
    (by decide) (by decide) (by decide)

/-- Claim C2: `unreadCount(u)` counts the stored messages with
`receiverId == u` and `isRead == false`; since no operation ever sets
`isRead` to true, in every reachable state this equals the total number of
messages ever sent to `u`. -/
theorem unreadCount_spec (s : SessionState) (hs : Reachable s) (uid : Nat) :
    (∀ m ∈ s.messages, m.is_read = false) ∧
    get_unread_messages_count s uid =
      s.messages.countP (fun m => m.receiver_id == uid) := by
  have hinv := reachable_inv hs
  refine ⟨hinv.msg_unread, ?_⟩
  apply List.countP_congr
  intro m hm
  simp [hinv.msg_unread m hm]

/-- Claim C2 witness: in the scenario where Bob has sent Alice three
messages, Alice's unread count is 3. -/
theorem unreadCount_spec_witness :
    get_unread_messages_count exStateMsgs 0 = 3 := by
  have h := (unreadCount_spec exStateMsgs reachable_exStateMsgs 0).2
  exact h.trans (by decide)

/-- Claim C3: a valid login input (non-empty name, age within the widget
bounds, a concrete gender selection) makes `createUser` generate a fresh id
not already in the users map, insert the new user with `online = true`, set
the current user to it, and move the page to `main`. -/
theorem createUser_valid_spec (s : SessionState) (hs : Reachable s)
    (name gender : String) (age : Nat) (hname : name ≠ "")
    (hage : 18 ≤ age ∧ age ≤ 100)
    (hgender : gender = "Male" ∨ gender = "Female" ∨ gender = "Other") :
    s.next_id ∉ userIds s ∧
    (createUser s name age gender).users = s.users ++
      [{ id := s.next_id, name := name, age := age, gender := gender,
         online := true, last_active := s.now }] ∧
    (createUser s name age gender).current_user = some
      { id := s.next_id, name := name, age := age, gender := gender,
        online := true, last_active := s.now } ∧
    (createUser s name age gender).current_page = "main" := by
  have hinv := reachable_inv hs
  have hg2 : gender ≠ "Select Gender" := by
    rcases hgender with h | h | h <;> rw [h] <;> decide
  have hcond : name ≠ "" ∧ gender ≠ "Select Gender" := ⟨hname, hg2⟩
  refine ⟨?_, ?_, ?_, ?_⟩
  · intro hmem
    simp only [userIds, List.mem_map] at hmem
    rcases hmem with ⟨u, hu, hux⟩
    exact absurd (hux ▸ hinv.users_lt u hu) (Nat.lt_irrefl _)
  all_goals
    simp only [createUser]
    split
    next => rfl
    next h => exact absurd hcond h

/-- Claim C3 witness: a valid login on the fresh state. -/
theorem createUser_valid_spec_witness :
    initState.next_id ∉ userIds initState ∧
    (createUser initState "Dana" 25 "Female").users = initState.users ++
      [{ id := initState.next_id, name := "Dana", age := 25,
         gender := "Female", online := true, last_active := initState.now }] ∧
    (createUser initState "Dana" 25 "Female").current_user = some
      { id := initState.next_id, name := "Dana", age := 25,
        gender := "Female", online := true, last_active := initState.now } ∧
    (createUser initState "Dana" 25 "Female").current_page = "main" :=
  createUser_valid_spec initState Reachable.init "Dana" "Female" 25
    (by decide) ⟨by decide, by decide⟩ (Or.inr (Or.inl rfl))

/-- Claim C4: with an empty name or the placeholder gender selection,
`createUser` is a silent no-op — the whole session state, the login page
included, is unchanged and nothing is signalled. -/
theorem createUser_invalid_noop (s : SessionState) (name gender : String)
    (age : Nat) (h : name = "" ∨ gender = "Select Gender") :
    createUser s name age gender = s := by
  simp only [createUser]
  split
  next hcond =>
    rcases h with h | h
    · exact absurd h hcond.1
    · exact absurd h hcond.2
  next => rfl

/-- Claim C4 witness: an empty name on the fresh state changes nothing. -/
theorem createUser_invalid_noop_witness :
    createUser initState "" 25 "Male" = initState :=
  createUser_invalid_noop initState "" "Male" 25 (Or.inl rfl)

/-- Claim C5: for both the direct and the group send, empty content is a
no-op, and non-empty content appends exactly one new message carrying
`isRead = false` and the current timestamp, addressed to the other user
resp. to the group. -/
theorem send_message_spec (s : SessionState) (c : User) (other gid : Nat)
    (content : String) :
    (content = "" →
      sendDirectMessage s c other content = s ∧
      sendGroupMessage s c gid content = s) ∧
    (content ≠ "" →
      (sendDirectMessage s c other content).messages = s.messages ++
        [{ id := s.next_id, sender_id := c.id, receiver_id := other,
           content := content, timestamp := s.now, is_read := false }] ∧
      (sendGroupMessage s c gid content).messages = s.messages ++
        [{ id := s.next_id, sender_id := c.id, receiver_id := gid,
           content := content, timestamp := s.now, is_read := false }]) := by
  constructor
  · intro h
    subst h
    constructor <;> simp [sendDirectMessage, sendGroupMessage]
  · intro h
    constructor <;> simp [sendDirectMessage, sendGroupMessage, h]

/-- Claim C5 witness: on Bob's session, an empty direct or group send
changes nothing, and non-empty sends append one message each. -/
theorem send_message_spec_witness :
    (sendDirectMessage exStateB bobUser 0 "" = exStateB ∧
     sendGroupMessage exStateB bobUser 7 "" = exStateB) ∧
    ((sendDirectMessage exStateB bobUser 0 "hi").messages =
      exStateB.messages ++
        [{ id := 2, sender_id := 1, receiver_id := 0, content := "hi",
           timestamp := 2, is_read := false }] ∧
     (sendGroupMessage exStateB bobUser 7 "hello").messages =
      exStateB.messages ++
        [{ id := 2, sender_id := 1, receiver_id := 7, content := "hello",
           timestamp := 2, is_read := false }]) := by
  refine ⟨⟨?_, ?_⟩, ?_, ?_⟩
  · exact ((send_message_spec exStateB bobUser 0 7 "").1 rfl).1
  · exact ((send_message_spec exStateB bobUser 0 7 "").1 rfl).2
  · have h := ((send_message_spec exStateB bobUser 0 7 "hi").2
      (by decide)).1
    exact h.trans (by decide)
  · have h := ((send_message_spec exStateB bobUser 0 7 "hello").2
      (by decide)).2
    exact h.trans (by decide)

/-- Claim C6: `createGroup` is a no-op when the name is empty or no member
name is selected; otherwise it appends a group with a fresh id whose member
list is the creator followed by the resolved ids of the selected names; and
in every reachable state every group's member list includes its creator. -/
theorem createGroup_spec (s : SessionState) (hs : Reachable s) (c : User)
    (gname : String) (selected : List String) :
    ((gname = "" ∨ selected = []) → createGroup s c gname selected = s) ∧
    (gname ≠ "" → selected ≠ [] →
      (createGroup s c gname selected).groups = s.groups ++
        [{ id := s.next_id, name := gname, creator_id := c.id,
           members := c.id :: ((availableUsers s.users c.id).filter
             (fun u => selected.contains u.name)).map (fun u => u.id),
           created_at := s.now }]) ∧
    (∀ g ∈ s.groups, g.creator_id ∈ g.members) := by
  refine ⟨?_, ?_, (reachable_inv hs).groups_creator⟩
  · intro h
    simp only [createGroup]
    split
    next hcond =>
      rcases h with h | h
      · exact absurd h hcond.1
      · exact absurd h hcond.2
    next => rfl
  · intro h1 h2
    simp [createGroup, h1, h2]

/-- Claim C6 witness: with Alice and Bob registered before creator Carol,
`createGroup "Team" carol ["Alice", "Bob"]` yields members
`[carol, alice, bob]` in that order. -/
theorem createGroup_spec_witness :
    (createGroup exStateC carolUser "Team" ["Alice", "Bob"]).groups =
      [{ id := 3, name := "Team", creator_id := 2, members := [2, 0, 1],
         created_at := 3 }] := by
  have h := (createGroup_spec exStateC reachable_exStateC carolUser "Team"
    ["Alice", "Bob"]).2.1 (by decide) (by decide)
  exact h.trans (by decide)

/-- Claim C7 (amended): `openChat` and `closeChat` are idempotent, and
`openChat k` followed by `closeChat k` leaves `active_chats` equal to its
previous value with `k` removed — which restores the previous value exactly
when `k` was not already an open chat. -/
theorem openChat_closeChat_spec (s : SessionState) (k : ChatKey) :
    openChat (openChat s k) k = openChat s k ∧
    closeChat (closeChat s k) k = closeChat s k ∧
    (closeChat (openChat s k) k).active_chats = s.active_chats.erase k ∧
    (k ∉ s.active_chats →
      (closeChat (openChat s k) k).active_chats = s.active_chats) := by
  refine ⟨?_, ?_, ?_, ?_⟩
  · simp [openChat, Finset.insert_idem]
  · simp [closeChat, Finset.erase_idem]
  · simp [openChat, closeChat, Finset.erase_insert_eq_erase]
  · intro hk
    simp [openChat, closeChat, Finset.erase_insert hk]

/-- Claim C7 witness: on the fresh state, where no chat is open, the
open-then-close round trip restores `active_chats`. -/
theorem openChat_closeChat_spec_witness :
    (closeChat (openChat initState (ChatKey.user 0)) (ChatKey.user 0)).active_chats
       = initState.active_chats :=
  (openChat_closeChat_spec initState (ChatKey.user 0)).2.2.2 (by decide)

/-- Claim C7 counterexample: from a state in which the key is already an
open chat, `openChat` followed by `closeChat` does not restore
`active_chats` — the key ends up removed. -/
theorem openChat_closeChat_no_roundTrip :
    (closeChat (openChat (openChat initState (ChatKey.user 0))
        (ChatKey.user 0)) (ChatKey.user 0)).active_chats ≠
      (openChat initState (ChatKey.user 0)).active_chats := by decide

/-- Claim C8: in every reachable state, the current user is absent exactly
when the page is the login page. -/
theorem currentUser_none_iff_login (s : SessionState) (hs : Reachable s) :
    s.current_user = none ↔ s.current_page = "login" :=
  (reachable_inv hs).login_iff

/-- Claim C8 witness: the invariant holds in the freshly initialised
state. -/
theorem currentUser_none_iff_login_witness :
    initState.current_user = none ↔ initState.current_page = "login" :=
  currentUser_none_iff_login initState Reachable.init

/-- Claim C9: `logout` clears the current user and returns to the login
page while leaving the users map, the message sequence and the groups map
untouched. -/
theorem logout_spec (s : SessionState) :
    (logout s).current_user = none ∧ (logout s).current_page = "login" ∧
    (logout s).users = s.users ∧ (logout s).messages = s.messages ∧
    (logout s).groups = s.groups :=
  ⟨rfl, rfl, rfl, rfl, rfl⟩

/-- Claim C10: member resolution in `createGroup` walks the users map in
insertion order and adds every non-creator user whose display name is among
the selected names — so the member order follows the users map, not the
selection, and two users sharing a selected name are both added. -/
theorem createGroup_member_resolution (s : SessionState) (c : User)
    (gname : String) (selected : List String) (h1 : gname ≠ "")
    (h2 : selected ≠ []) :
    (createGroup s c gname selected).groups = s.groups ++
      [{ id := s.next_id, name := gname, creator_id := c.id,
         members := c.id :: (s.users.filter
           (fun u => u.id != c.id && selected.contains u.name)).map
             (fun u => u.id),
         created_at := s.now }] ∧
    (∀ u ∈ s.users, u.id ≠ c.id → u.name ∈ selected →
      u.id ∈ c.id :: (s.users.filter
        (fun u => u.id != c.id && selected.contains u.name)).map
          (fun u => u.id)) := by
  constructor
  · simp [createGroup, h1, h2, availableUsers, List.filter_filter,
      Bool.and_comm]
  · intro u hu hne hsel
    refine List.mem_cons_of_mem _ (List.mem_map.mpr ⟨u, ?_, rfl⟩)
    refine List.mem_filter.mpr ⟨hu, ?_⟩
    simp [List.contains, hne, hsel]

/-- Claim C10 witness: two distinct users both named Alice, with the name
selected once, both end up in the group, ordered as in the users map. -/
theorem createGroup_member_resolution_witness :
    (createGroup
      { users := [{ id := 0, name := "Alice", age := 21, gender := "Female",
                    online := true, last_active := 0 },
                  { id := 1, name := "Alice", age := 34, gender := "Male",
                    online := true, last_active := 1 },
                  carolUser],
        current_user := some carolUser, messages := [], groups := [],
        active_chats := ∅, unread_counts := [], current_page := "main",
        next_id := 3, now := 3 }
      carolUser "Friends" ["Alice"]).groups =
      [{ id := 3, name := "Friends", creator_id := 2, members := [2, 0, 1],
         created_at := 3 }] := by
  have h := (createGroup_member_resolution
    { users := [{ id := 0, name := "Alice", age := 21, gender := "Female",
                  online := true, last_active := 0 },
                { id := 1, name := "Alice", age := 34, gender := "Male",
                  online := true, last_active := 1 },
                carolUser],
      current_user := some carolUser, messages := [], groups := [],
      active_chats := ∅, unread_counts := [], current_page := "main",
      next_id := 3, now := 3 }
    carolUser "Friends" ["Alice"] (by decide) (by decide)).1
  exact h.trans (by decide)

end ChatApp
